import Mathlib

/-!
Verification of the MIDI device database merge engine.

This file gives a shallow embedding of the entity-resolution and merge
engine of the repository (the `merge.js` script with alias mappings, and
the missing-entry diagnostics tool), and proves or refutes the frozen
claims about it.

JavaScript objects are modelled as insertion-ordered association lists
(`List (String × α)`): property read is `jsLookup` (first match), property
write is `jsSet` (replace in place, else append) — this is the observable
behaviour of string-keyed JS objects.  String truthiness (`x || d`) is
modelled by `jsOrS`.  Machine numbers never overflow here (parameter
values are small integers), so `Int` is used; `parseInt` returns either an
integer or `NaN`, modelled by `JSNum`.
-/

/-- JS object property read: first entry with the given key. -/
def jsLookup : List (String × α) → String → Option α
  | [], _ => none
  | (k, v) :: rest, key => if k = key then some v else jsLookup rest key

/-- JS object property write: replace in place if the key exists, else append. -/
def jsSet : List (String × α) → String → α → List (String × α)
  | [], k, v => [(k, v)]
  | (k0, v0) :: rest, k, v =>
    if k0 = k then (k, v) :: rest else (k0, v0) :: jsSet rest k v

/-- JS `x || d` for an optional string: `undefined` and `""` are falsy. -/
def jsOrS (v : Option String) (d : String) : String :=
  match v with
  | some s => if s = "" then d else s
  | none => d

/-- JS `s || d` for a present string: `""` is falsy. -/
def jsStrDefault (s d : String) : String :=
  if s = "" then d else s

/-- `str.replace(/\s+/g, rep)`: every run of whitespace becomes one `rep`. -/
def replWSGo (rep : String) : List Char → Bool → String
  | [], _ => ""
  | c :: cs, inRun =>
    if c.isWhitespace then
      (if inRun then "" else rep) ++ replWSGo rep cs true
    else
      String.singleton c ++ replWSGo rep cs false

/-- Replace every whitespace run in `s` by `rep` (JS `replace(/\s+/g, rep)`). -/
def replaceWSRuns (s rep : String) : String :=
  replWSGo rep s.toList false

/-- JS `toLowerCase()` (ASCII), computable by kernel reduction. -/
def toLowerCaseJS (s : String) : String := String.mk (s.toList.map Char.toLower)

/-- A JS number that is either an integer or `NaN` (result of `parseInt`). -/
inductive JSNum where
  | int (n : Int)
  | nan
deriving DecidableEq, Repr

/-- JS `parseInt(s, 10)`: skip leading whitespace, optional sign, longest
digit prefix; `NaN` when no digits. -/
def parseIntJS (s : String) : JSNum :=
  let cs := s.toList.dropWhile Char.isWhitespace
  let signed : Bool × List Char :=
    match cs with
    | '-' :: rest => (true, rest)
    | '+' :: rest => (false, rest)
    | _ => (false, cs)
  let ds := signed.2.takeWhile Char.isDigit
  if ds.isEmpty then JSNum.nan
  else
    let n : Int := Int.ofNat (ds.foldl (fun a c => a * 10 + (c.toNat - 48)) 0)
    JSNum.int (if signed.1 then -n else n)

/-- A raw numeric field of a source record: absent, a number, or a
numeric-looking string. -/
inductive RawNum where
  | undef
  | num (n : Int)
  | str (s : String)
deriving DecidableEq, Repr

/-- `typeof v === 'string' ? parseInt(v, 10) : v` (absent stays absent). -/
def coerceVal : RawNum → Option JSNum
  | RawNum.str s => some (parseIntJS s)
  | RawNum.num n => some (JSNum.int n)
  | RawNum.undef => none

/-- `typeof v === 'string' ? parseInt(v, 10) : (v !== undefined ? v : d)`. -/
def coerceWithDefault (r : RawNum) (d : Int) : JSNum :=
  match r with
  | RawNum.str s => parseIntJS s
  | RawNum.num n => JSNum.int n
  | RawNum.undef => JSNum.int d

/-- A raw parameter object as found in a source `cc`/`nrpn`/`pc` array. -/
structure RawParam where
  name : Option String := none
  description : Option String := none
  usage : Option String := none
  curve : Option String := none
  type : Option String := none
  value : RawNum := RawNum.undef
  min : RawNum := RawNum.undef
  max : RawNum := RawNum.undef
  msb : RawNum := RawNum.undef
  lsb : RawNum := RawNum.undef
deriving DecidableEq, Repr

/-- A standardized `cc`/`pc` parameter. -/
structure Param where
  name : String
  description : String
  usage : String
  curve : String
  value : Option JSNum
  min : JSNum
  max : JSNum
  type : String
deriving DecidableEq, Repr

/-- A standardized `nrpn` parameter. -/
structure NParam where
  name : String
  description : String
  usage : String
  curve : String
  msb : Option JSNum
  lsb : Option JSNum
  min : JSNum
  max : JSNum
  type : String
deriving DecidableEq, Repr

/-- A raw `pc` field: either already an array or a bare object. -/
inductive PCRaw where
  | arr (ps : List RawParam)
  | obj (description : Option String)
deriving DecidableEq, Repr

/-- The raw `midi_channel` sub-object of a source record. -/
structure RawMidiChannel where
  instructions : Option String := none
deriving DecidableEq, Repr

/-- A raw source device object, every field optional. -/
structure RawDevice where
  brand : Option String := none
  device_name : Option String := none
  midi_thru : Option Bool := none
  midi_in : Option String := none
  midi_clock : Option Bool := none
  phantom_power : Option String := none
  midi_channel : Option RawMidiChannel := none
  instructions : Option String := none
  cc : Option (List RawParam) := none
  nrpn : Option (List RawParam) := none
  pc : Option PCRaw := none
deriving DecidableEq, Repr

/-- The standardized `midi_channel` sub-object. -/
structure MidiChannel where
  instructions : String
deriving DecidableEq, Repr

/-- A standardized device record (output of `createStandardDevice`). -/
structure Device where
  brand : String
  device_name : String
  midi_thru : Bool
  midi_in : String
  midi_clock : Bool
  phantom_power : String
  midi_channel : MidiChannel
  instructions : String
  cc : List Param
  nrpn : List NParam
  pc : List Param
deriving DecidableEq, Repr

/-- Truthy lookup `mappingTable[key]`: a missing or empty-string value is falsy. -/
def lookupTruthy (table : List (String × String)) (k : String) : Option String :=
  match jsLookup table k with
  | some v => if v = "" then none else some v
  | none => none

/-- `displayNameTable ? (displayNameTable[normalizedKey] || normalizedKey) : normalizedKey`. -/
def displayOf (displayTable : Option (List (String × String))) (nk : String) : String :=
  match displayTable with
  | some dt =>
    match jsLookup dt nk with
    | some d => if d = "" then nk else d
    | none => nk
  | none => nk

/-- `normalizeAndMapKey(key, mappingTable, displayNameTable)` from the merge
script: exact lookup, then lowercase lookup, else the raw key; the
normalized id is the mapped value (or raw key) lowercased with whitespace
runs collapsed to `_`. Returns `(normalized, canonical)`. -/
def normalizeAndMapKey (key : String) (table : List (String × String))
    (displayTable : Option (List (String × String))) : String × String :=
  match lookupTruthy table key with
  | some nk => (replaceWSRuns (toLowerCaseJS nk) "_", displayOf displayTable nk)
  | none =>
    match lookupTruthy table (toLowerCaseJS key) with
    | some nk => (replaceWSRuns (toLowerCaseJS nk) "_", displayOf displayTable nk)
    | none => (replaceWSRuns (toLowerCaseJS key) "_", key)

/-- `getModelDisplayName(brandKey, modelKey)` over a model display-name table. -/
def getModelDisplayName (mdn : List (String × List (String × String)))
    (brandKey modelKey : String) : String :=
  match jsLookup mdn brandKey with
  | some inner =>
    match jsLookup inner modelKey with
    | some n => if n = "" then modelKey else n
    | none => modelKey
  | none => modelKey

/-- Standardize one raw `cc` parameter (the map body in `createStandardDevice`). -/
def stdCC (p : RawParam) : Param where
  name := jsOrS p.name ""
  description := jsOrS p.description ""
  usage := jsOrS p.usage ""
  curve := jsOrS p.curve "0-based"
  value := coerceVal p.value
  min := coerceWithDefault p.min 0
  max := coerceWithDefault p.max 127
  type := jsOrS p.type "Parameter"

/-- Standardize one raw `nrpn` parameter. -/
def stdNRPN (p : RawParam) : NParam where
  name := jsOrS p.name ""
  description := jsOrS p.description ""
  usage := jsOrS p.usage ""
  curve := jsOrS p.curve "0-based"
  msb := coerceVal p.msb
  lsb := coerceVal p.lsb
  min := coerceWithDefault p.min 0
  max := coerceWithDefault p.max 16383
  type := jsOrS p.type "Parameter"

/-- `createStandardDevice(deviceData, brandName, deviceName)`: fixed schema
with defaults; note that `pc` is always set to the empty array. -/
def createStandardDevice (d : RawDevice) (brandName deviceName : String) : Device where
  brand := brandName
  device_name := deviceName
  midi_thru := d.midi_thru.getD false
  midi_in := jsOrS d.midi_in ""
  midi_clock := d.midi_clock.getD false
  phantom_power := jsOrS d.phantom_power "None"
  midi_channel := ⟨jsOrS (d.midi_channel.bind RawMidiChannel.instructions) ""⟩
  instructions := jsOrS d.instructions ""
  cc := (d.cc.getD []).map stdCC
  nrpn := (d.nrpn.getD []).map stdNRPN
  pc := []

/-- The raw Program Change parameter object built by the source-DB loop's
pc pre-normalization (lines 361–370 of the merge script). -/
def progChangeRaw (desc : Option String) : RawParam where
  name := some "Program Change"
  description := some (jsOrS desc "")
  usage := some ""
  curve := some "0-based"
  value := RawNum.num 0
  min := RawNum.num 0
  max := RawNum.num 127
  type := some "Parameter"

/-- The pc pre-normalization of the source-DB loop: a truthy non-array `pc`
is replaced by a one-element array of the Program Change parameter. -/
def preNormalizePC (d : RawDevice) : RawDevice :=
  match d.pc with
  | some (PCRaw.obj desc) => { d with pc := some (PCRaw.arr [progChangeRaw desc]) }
  | _ => d

/-- The body of the `['cc', 'nrpn', 'pc'].forEach` of `mergeDevices`: when
both arrays are non-empty the one with more entries wins (ties to the
first), else whichever is non-empty, else empty. -/
def arrayFieldMerge (x y : List α) : List α :=
  if x.length > 0 ∧ y.length > 0 then
    (if x.length ≥ y.length then x else y)
  else if x.length > 0 then x
  else if y.length > 0 then y
  else []

/-- `mergeDevices(deviceA, deviceB)`: `{...deviceB, ...deviceA}` (every field
of a standardized record is present, so all scalars come from `deviceA`),
then length-wins on `cc`/`nrpn`/`pc` when both sides are non-empty, the
longer `midi_channel.instructions` when both are truthy, and the final
re-defaulting of required fields. -/
def mergeDevices (a b : Device) : Device where
  brand := a.brand
  device_name := a.device_name
  midi_thru := a.midi_thru || false
  midi_in := jsStrDefault a.midi_in ""
  midi_clock := a.midi_clock || false
  phantom_power := jsStrDefault a.phantom_power "None"
  midi_channel :=
    ⟨if a.midi_channel.instructions ≠ "" ∧ b.midi_channel.instructions ≠ "" then
        (if a.midi_channel.instructions.length ≥ b.midi_channel.instructions.length then
          a.midi_channel.instructions
        else b.midi_channel.instructions)
      else a.midi_channel.instructions⟩
  instructions := jsStrDefault a.instructions ""
  cc := arrayFieldMerge a.cc b.cc
  nrpn := arrayFieldMerge a.nrpn b.nrpn
  pc := arrayFieldMerge a.pc b.pc

/-- The four alias tables produced by `loadMappings`. -/
structure Mappings where
  manufacturerMapping : List (String × String)
  deviceMapping : List (String × String)
  brandDisplayNames : List (String × String)
  modelDisplayNames : List (String × List (String × String))
deriving DecidableEq, Repr

/-- A model entry of `mapping.json` (`name`/`value` may be absent). -/
structure ModelCfg where
  name : Option String := none
  value : Option String := none
deriving DecidableEq, Repr

/-- A brand entry of `mapping.json`. -/
structure BrandCfg where
  name : String
  value : String
  models : Option (List ModelCfg) := none
deriving DecidableEq, Repr

/-- The parsed `mapping.json` configuration. -/
structure MappingConfig where
  brands : List BrandCfg
deriving DecidableEq, Repr

/-- Case-insensitive character comparison (for the `/i` regex flags). -/
def lcEq (c d : Char) : Bool := c.toLower = d.toLower

/-- `replace(/mk(\d+)/i, 'mark$1')`: first case-insensitive `mk` followed by
a digit becomes `mark` (digits kept). -/
def replFirstMkToMark : List Char → List Char
  | c1 :: c2 :: c3 :: rest =>
    if lcEq c1 'm' && lcEq c2 'k' && c3.isDigit then
      'm' :: 'a' :: 'r' :: 'k' :: c3 :: rest
    else c1 :: replFirstMkToMark (c2 :: c3 :: rest)
  | l => l

/-- `replace(/mark(\d+)/i, 'mk$1')`. -/
def replFirstMarkToMk : List Char → List Char
  | c1 :: c2 :: c3 :: c4 :: c5 :: rest =>
    if lcEq c1 'm' && lcEq c2 'a' && lcEq c3 'r' && lcEq c4 'k' && c5.isDigit then
      'm' :: 'k' :: c5 :: rest
    else c1 :: replFirstMarkToMk (c2 :: c3 :: c4 :: c5 :: rest)
  | l => l

/-- `replace(/mkii/i, 'mk2')`. -/
def replFirstMkiiToMk2 : List Char → List Char
  | c1 :: c2 :: c3 :: c4 :: rest =>
    if lcEq c1 'm' && lcEq c2 'k' && lcEq c3 'i' && lcEq c4 'i' then
      'm' :: 'k' :: '2' :: rest
    else c1 :: replFirstMkiiToMk2 (c2 :: c3 :: c4 :: rest)
  | l => l

/-- `replace(/mk2/i, 'mkii')`. -/
def replFirstMk2ToMkii : List Char → List Char
  | c1 :: c2 :: c3 :: rest =>
    if lcEq c1 'm' && lcEq c2 'k' && c3 = '2' then
      'm' :: 'k' :: 'i' :: 'i' :: rest
    else c1 :: replFirstMk2ToMkii (c2 :: c3 :: rest)
  | l => l

/-- Lift a character-list rewriter to strings. -/
def onChars (f : List Char → List Char) (s : String) : String :=
  String.mk (f s.toList)

/-- Register the manufacturer-alias variants of one brand entry
(lines 40–65 of the merge script), in registration order. -/
def regBrandVariants (t : List (String × String)) (b : BrandCfg) : List (String × String) :=
  let v := b.value
  let n := b.name
  let t := jsSet t v v
  let t := jsSet t (toLowerCaseJS n) v
  let t := jsSet t (replaceWSRuns (toLowerCaseJS n) "") v
  let t := jsSet t (replaceWSRuns (toLowerCaseJS n) "_") v
  let t := jsSet t (replaceWSRuns (toLowerCaseJS n) "-") v
  let t := jsSet t (v ++ "_music") v
  let t := jsSet t (v ++ "music") v
  let t := jsSet t (v ++ "_audio") v
  let t := jsSet t (v ++ "audio") v
  let t := jsSet t (v ++ "_electronics") v
  let t := jsSet t (v ++ "electronics") v
  let t := jsSet t (v ++ "_pedals") v
  let t := jsSet t (v ++ "pedals") v
  let t := jsSet t (v ++ "_effects") v
  let t := jsSet t (v ++ "effects") v
  let t := jsSet t (v ++ "_engineering") v
  let t := jsSet t (v ++ "engineering") v
  let t := jsSet t (v.replace "-" "_") v
  let t := jsSet t (v.replace "_" "-") v
  t

/-- Register the device-alias variants of one model entry
(lines 69–94 of the merge script); entries without a truthy `value` are skipped. -/
def regModelVariants (t : List (String × String)) (m : ModelCfg) : List (String × String) :=
  match m.value with
  | none => t
  | some mv =>
    if mv = "" then t
    else
      let mn := jsOrS m.name mv
      let t := jsSet t mv mv
      let t := jsSet t (toLowerCaseJS mn) mv
      let t := jsSet t (replaceWSRuns (toLowerCaseJS mn) "") mv
      let t := jsSet t (replaceWSRuns (toLowerCaseJS mn) "_") mv
      let t := jsSet t (replaceWSRuns (toLowerCaseJS mn) "-") mv
      let t := jsSet t (mv.replace "-" "_") mv
      let t := jsSet t (mv.replace "_" "-") mv
      let t := jsSet t (mv.replace "." "") mv
      let t := jsSet t (onChars replFirstMkToMark mv) mv
      let t := jsSet t (onChars replFirstMarkToMk mv) mv
      let t := jsSet t (onChars replFirstMkiiToMk2 mv) mv
      let t := jsSet t (onChars replFirstMk2ToMkii mv) mv
      t

/-- Register the model display names of one brand (lines 106–117). -/
def regModelDisplay (mdn : List (String × List (String × String))) (bv : String)
    (m : ModelCfg) : List (String × List (String × String)) :=
  match m.value, m.name with
  | some mv, some mn =>
    if mv = "" ∨ mn = "" then mdn
    else
      match jsLookup mdn bv with
      | some inner => jsSet mdn bv (jsSet inner mv mn)
      | none => mdn ++ [(bv, [(mv, mn)])]
  | _, _ => mdn

/-- Build the four alias tables from a parsed `mapping.json`
(the body of the `try` block of `loadMappings`). -/
def buildMappings (cfg : MappingConfig) : Mappings where
  manufacturerMapping :=
    cfg.brands.foldl (fun t b =>
      let t := regBrandVariants t b
      t) []
  deviceMapping :=
    cfg.brands.foldl (fun t b =>
      match b.models with
      | some ms => ms.foldl regModelVariants t
      | none => t) []
  brandDisplayNames :=
    cfg.brands.foldl (fun t b => jsSet t b.value b.name) []
  modelDisplayNames :=
    cfg.brands.foldl (fun mdn b =>
      match b.models with
      | some ms => ms.foldl (fun mdn m => regModelDisplay mdn b.value m) mdn
      | none => mdn) []

/-- `loadMappings()`: the file read/parse result is the argument; on any
error the catch branch returns four empty tables. -/
def loadMappings (raw : Except String MappingConfig) : Mappings :=
  match raw with
  | Except.ok cfg => buildMappings cfg
  | Except.error _ => ⟨[], [], [], []⟩

/-- A source database: brand key → device key → raw device object. -/
abbrev Db := List (String × List (String × RawDevice))

/-- One record of an identity bucket (`normalizedDeviceMap[deviceId]`). -/
structure Variant where
  brandKey : String
  deviceKey : String
  canonicalBrandName : String
  canonicalDeviceName : String
  data : Device
deriving DecidableEq, Repr

/-- One entry of the `manufacturers` map. -/
structure MEntry where
  variants : List String
  canonicalName : String
  devices : List (String × String)
deriving DecidableEq, Repr

/-- The mutable state of the combining phase. -/
structure ResState where
  manufacturers : List (String × MEntry)
  deviceMap : List (String × List Variant)
deriving DecidableEq, Repr

/-- `version` and `generatedAt`. -/
def reservedKeys : List String := ["version", "generatedAt"]

/-- Set `manufacturers[nb].devices[nd] = deviceId` (entry exists by construction). -/
def setMDevice (ms : List (String × MEntry)) (nb nd deviceId : String) :
    List (String × MEntry) :=
  match jsLookup ms nb with
  | some e => jsSet ms nb { e with devices := jsSet e.devices nd deviceId }
  | none => ms

/-- Append a variant to the bucket for `deviceId` (creating it when absent). -/
def pushBucket (dm : List (String × List Variant)) (deviceId : String) (v : Variant) :
    List (String × List Variant) :=
  jsSet dm deviceId ((jsLookup dm deviceId).getD [] ++ [v])

/-- Process one device entry of the target database (lines 305–327). -/
def processDeviceTarget (m : Mappings) (brandKey normalizedBrand canonicalBrand : String)
    (st : ResState) (deviceKey : String) (deviceData : RawDevice) : ResState :=
  let nd := normalizeAndMapKey deviceKey m.deviceMapping none
  let normalizedDevice := nd.1
  let displayDeviceName := getModelDisplayName m.modelDisplayNames normalizedBrand normalizedDevice
  let deviceId := normalizedBrand ++ "_" ++ normalizedDevice
  let variant : Variant :=
    { brandKey := brandKey
      deviceKey := deviceKey
      canonicalBrandName := canonicalBrand
      canonicalDeviceName := displayDeviceName
      data := createStandardDevice deviceData (jsOrS deviceData.brand canonicalBrand)
        (jsOrS deviceData.device_name displayDeviceName) }
  { st with
    deviceMap := pushBucket st.deviceMap deviceId variant
    manufacturers := setMDevice st.manufacturers normalizedBrand normalizedDevice deviceId }

/-- Process one brand entry of the target database (lines 286–328). -/
def processBrandTarget (m : Mappings) (st : ResState) (brandKey : String)
    (brandData : List (String × RawDevice)) : ResState :=
  let nb := normalizeAndMapKey brandKey m.manufacturerMapping (some m.brandDisplayNames)
  let normalizedBrand := nb.1
  let canonicalBrand := nb.2
  let manufacturers1 :=
    match jsLookup st.manufacturers normalizedBrand with
    | none => st.manufacturers ++ [(normalizedBrand, ⟨[brandKey], canonicalBrand, []⟩)]
    | some e => jsSet st.manufacturers normalizedBrand
        { e with variants := e.variants ++ [brandKey] }
  brandData.foldl
    (fun st p => processDeviceTarget m brandKey normalizedBrand canonicalBrand st p.1 p.2)
    { st with manufacturers := manufacturers1 }

/-- Process one device entry of the source database (lines 346–382), with
the pc pre-normalization applied before standardization. -/
def processDeviceSource (m : Mappings) (brandKey normalizedBrand canonicalBrand : String)
    (st : ResState) (deviceKey : String) (deviceData : RawDevice) : ResState :=
  let nd := normalizeAndMapKey deviceKey m.deviceMapping none
  let normalizedDevice := nd.1
  let displayDeviceName := getModelDisplayName m.modelDisplayNames normalizedBrand normalizedDevice
  let deviceId := normalizedBrand ++ "_" ++ normalizedDevice
  let deviceData1 := preNormalizePC deviceData
  let variant : Variant :=
    { brandKey := brandKey
      deviceKey := deviceKey
      canonicalBrandName := canonicalBrand
      canonicalDeviceName := displayDeviceName
      data := createStandardDevice deviceData1 canonicalBrand displayDeviceName }
  { st with
    deviceMap := pushBucket st.deviceMap deviceId variant
    manufacturers := setMDevice st.manufacturers normalizedBrand normalizedDevice deviceId }

/-- Process one brand entry of the source database (lines 331–383): unlike
the target loop, the raw brand key is pushed as a variant only when new. -/
def processBrandSource (m : Mappings) (st : ResState) (brandKey : String)
    (brandData : List (String × RawDevice)) : ResState :=
  let nb := normalizeAndMapKey brandKey m.manufacturerMapping (some m.brandDisplayNames)
  let normalizedBrand := nb.1
  let canonicalBrand := nb.2
  let manufacturers1 :=
    match jsLookup st.manufacturers normalizedBrand with
    | none => st.manufacturers ++ [(normalizedBrand, ⟨[brandKey], canonicalBrand, []⟩)]
    | some e =>
      if e.variants.contains brandKey then st.manufacturers
      else jsSet st.manufacturers normalizedBrand
        { e with variants := e.variants ++ [brandKey] }
  brandData.foldl
    (fun st p => processDeviceSource m brandKey normalizedBrand canonicalBrand st p.1 p.2)
    { st with manufacturers := manufacturers1 }

/-- The target-database loop: reserved metadata keys are skipped. -/
def processTargetDb (m : Mappings) (t : Db) (st : ResState) : ResState :=
  t.foldl (fun st e =>
    if e.1 ∈ reservedKeys then st else processBrandTarget m st e.1 e.2) st

/-- The source-database loop: every top-level key is processed as a brand. -/
def processSourceDb (m : Mappings) (s : Db) (st : ResState) : ResState :=
  s.foldl (fun st e => processBrandSource m st e.1 e.2) st

/-- Total parameter count of a variant (the sort key of line 412–416). -/
def variantCount (v : Variant) : Nat :=
  v.data.cc.length + v.data.nrpn.length + v.data.pc.length

/-- `variant.canonicalDeviceName || variant.deviceKey`. -/
def nameOf (v : Variant) : String :=
  if v.canonicalDeviceName = "" then v.deviceKey else v.canonicalDeviceName

/-- Stable insertion step for the descending completeness sort. -/
def insDesc (v : Variant) : List Variant → List Variant
  | [] => [v]
  | w :: ws => if variantCount w ≤ variantCount v then v :: w :: ws else w :: insDesc v ws

/-- The stable sort of a model group by descending total parameter count
(JS `Array.prototype.sort` is stable; the comparator `bCount - aCount`
is a consistent total preorder, so this insertion sort computes it). -/
def sortDesc : List Variant → List Variant
  | [] => []
  | v :: vs => insDesc v (sortDesc vs)

/-- Append a variant to its model-name group (`variantsByName` building). -/
def pushGroup (gs : List (String × List Variant)) (n : String) (v : Variant) :
    List (String × List Variant) :=
  match gs with
  | [] => [(n, [v])]
  | (k, l) :: rest =>
    if k = n then (k, l ++ [v]) :: rest else (k, l) :: pushGroup rest n v

/-- Group a bucket's variants by canonical display name (lines 399–407). -/
def groupByName (vs : List Variant) : List (String × List Variant) :=
  vs.foldl (fun gs v => pushGroup gs (nameOf v) v) []

/-- The all-defaults standardized device (unreachable fallback for an empty group). -/
def emptyDevice : Device := createStandardDevice {} "" ""

/-- Merge one model group (lines 410–431): sort descending by completeness,
fold `mergeDevices` over the rest, then stamp brand and device name. -/
def mergeModelGroup (primaryBrandKey modelName : String) (variants : List Variant) : Device :=
  match sortDesc variants with
  | [] => emptyDevice
  | p :: rest =>
    let merged := rest.foldl (fun acc v => mergeDevices acc v.data) p.data
    { merged with brand := primaryBrandKey, device_name := modelName }

/-- Process one identity bucket under a brand (lines 398–434): split by
model name, merge each group, and store each group under its own name. -/
def processBucket (primaryBrandKey : String) (variants : List Variant)
    (inner : List (String × Device)) : List (String × Device) :=
  (groupByName variants).foldl
    (fun inner g => jsSet inner g.1 (mergeModelGroup primaryBrandKey g.1 g.2)) inner

/-- Build the device map of one manufacturer entry (lines 392–435):
`finalDb[primaryBrandKey]` starts empty and each bucket is processed. -/
def processManufacturer (dmap : List (String × List Variant)) (primaryBrandKey : String)
    (devices : List (String × String)) : List (String × Device) :=
  devices.foldl
    (fun inner d => processBucket primaryBrandKey ((jsLookup dmap d.2).getD []) inner) []

/-- A value of the final database: copied metadata or a merged brand. -/
inductive FinalVal where
  | meta (v : List (String × RawDevice))
  | brand (devs : List (String × Device))
deriving DecidableEq, Repr

/-- The metadata copy (lines 271–277): each reserved key present on the
target database is copied verbatim. -/
def metadataOf (t : Db) : List (String × FinalVal) :=
  reservedKeys.foldl (fun acc k =>
    match jsLookup t k with
    | some v => acc ++ [(k, FinalVal.meta v)]
    | none => acc) []

/-- The final assembly (lines 388–436): for each manufacturer, in encounter
order, (re)initialize `finalDb[canonicalName]` and fill it. -/
def assembleDb (init : List (String × FinalVal)) (ms : List (String × MEntry))
    (dmap : List (String × List Variant)) : List (String × FinalVal) :=
  ms.foldl (fun db me =>
    jsSet db me.2.canonicalName
      (FinalVal.brand (processManufacturer dmap me.2.canonicalName me.2.devices))) init

/-- The whole resolution run of the merge script on in-memory inputs. -/
def resolveDb (t s : Db) (m : Mappings) : List (String × FinalVal) :=
  let st1 := processTargetDb m t ⟨[], []⟩
  let st2 := processSourceDb m s st1
  assembleDb (metadataOf t) st2.manufacturers st2.deviceMap

/-- The two missing-entry reports of the diagnostics tool. -/
structure DiagState where
  missingBrands : List String
  missingDevices : List (String × List String)
deriving DecidableEq, Repr

/-- `Set.add`: append when not already present. -/
def addSet (l : List String) (x : String) : List String :=
  if l.contains x then l else l ++ [x]

/-- Record a missing device key under its resolved brand value. -/
def addDevMissing (md : List (String × List String)) (bv dk : String) :
    List (String × List String) :=
  match jsLookup md bv with
  | some s => jsSet md bv (addSet s dk)
  | none => md ++ [(bv, [dk])]

/-- The device check of the diagnostics tool for one resolved brand. -/
def diagDevices (dv : List (String × ModelCfg)) (bv : String) (st : DiagState)
    (devs : List (String × RawDevice)) : DiagState :=
  devs.foldl (fun st p =>
    let deviceId := bv ++ "_" ++ replaceWSRuns (toLowerCaseJS p.1) ""
    if (jsLookup dv deviceId).isSome then st
    else { st with missingDevices := addDevMissing st.missingDevices bv p.1 }) st

/-- The brand check of the diagnostics tool (lines 60–93 / 96–127 of the
diagnostics script): three case-insensitive lookups, first hit wins. -/
def diagProcessBrand (bn bv : List (String × BrandCfg)) (dv : List (String × ModelCfg))
    (st : DiagState) (brandKey : String) (devs : List (String × RawDevice)) : DiagState :=
  let normalizedBrandKey := replaceWSRuns (toLowerCaseJS brandKey) ""
  match jsLookup bn (toLowerCaseJS brandKey) with
  | some b => diagDevices dv b.value st devs
  | none =>
    match jsLookup bv normalizedBrandKey with
    | some b => diagDevices dv b.value st devs
    | none =>
      match jsLookup bv (toLowerCaseJS brandKey) with
      | some b => diagDevices dv b.value st devs
      | none => { st with missingBrands := addSet st.missingBrands brandKey }

/-- The diagnostics computation over both databases (reserved keys are
skipped only in the target loop). -/
def computeDiagnostics (cfg : MappingConfig) (t s : Db) : DiagState :=
  let bn := cfg.brands.foldl (fun m b => jsSet m (toLowerCaseJS b.name) b) []
  let bv := cfg.brands.foldl (fun m b => jsSet m (toLowerCaseJS b.value) b) []
  let dv := cfg.brands.foldl (fun m b =>
    match b.models with
    | some ms => ms.foldl (fun m mdl =>
        match mdl.value with
        | some mv => if mv = "" then m else jsSet m ((toLowerCaseJS (b.value ++ "_" ++ mv))) mdl
        | none => m) m
    | none => m) []
  let st := t.foldl (fun st e =>
    if e.1 ∈ reservedKeys then st else diagProcessBrand bn bv dv st e.1 e.2) ⟨[], []⟩
  s.foldl (fun st e => diagProcessBrand bn bv dv st e.1 e.2) st

/-- The diagnostics tool run: `mapping.json` is read and parsed at top
level with no try/catch, so a read or parse error aborts the run. -/
def runDiagnostics (raw : Except String MappingConfig) (t s : Db) :
    Except String DiagState :=
  match raw with
  | Except.ok cfg => Except.ok (computeDiagnostics cfg t s)
  | Except.error e => Except.error e

/-- C1 scenario: target device record with a one-element `cc` list. -/
def c1TargetRaw : RawDevice := { cc := some [{ name := some "Gain" }] }

/-- C1 scenario: source device record with a two-element `cc` list. -/
def c1SourceRaw : RawDevice :=
  { cc := some [{ name := some "Gain" }, { name := some "Volume" }] }

/-- C1 scenario: target database `{"BOSS": {"GT-1000": …}}`. -/
def c1Target : Db := [("BOSS", [("GT-1000", c1TargetRaw)])]

/-- C1 scenario: source database `{"roland": {"gt1000": …}}`. -/
def c1Source : Db := [("roland", [("gt1000", c1SourceRaw)])]

/-- C1 scenario: alias table `roland→boss` (display `BOSS`),
`gt1000→gt-1000` (display `GT-1000`). -/
def c1Mappings : Mappings where
  manufacturerMapping := [("roland", "boss")]
  deviceMapping := [("gt1000", "gt-1000")]
  brandDisplayNames := [("boss", "BOSS")]
  modelDisplayNames := [("boss", [("gt-1000", "GT-1000")])]

/-- Sample standardized cc/pc parameter for witnesses. -/
def pSample (n : String) : Param :=
  ⟨n, "", "", "0-based", none, JSNum.int 0, JSNum.int 127, "Parameter"⟩

/-- Sample standardized nrpn parameter for witnesses. -/
def qSample (n : String) : NParam :=
  ⟨n, "", "", "0-based", none, none, JSNum.int 0, JSNum.int 16383, "Parameter"⟩

/-- Witness device with three cc entries and instructions `"hello"`. -/
def wDevA : Device :=
  { brand := "A", device_name := "DA", midi_thru := false, midi_in := "",
    midi_clock := false, phantom_power := "None", midi_channel := ⟨"hello"⟩,
    instructions := "", cc := [pSample "a", pSample "b", pSample "c"],
    nrpn := [qSample "n1", qSample "n2"], pc := [pSample "p1"] }

/-- Witness device with one cc entry and instructions `"hi"`. -/
def wDevB : Device :=
  { brand := "B", device_name := "DB", midi_thru := false, midi_in := "",
    midi_clock := false, phantom_power := "None", midi_channel := ⟨"hi"⟩,
    instructions := "", cc := [pSample "x"], nrpn := [qSample "m1", qSample "m2"],
    pc := [pSample "p2"] }

/-- C6 counterexample: primary record with empty instructions. -/
def c6Primary : Device := createStandardDevice {} "A" "X"

/-- C6 counterexample: secondary record with non-empty instructions. -/
def c6Secondary : Device :=
  createStandardDevice { midi_channel := some ⟨some "use channel 5"⟩ } "B" "Y"

/-- C4 counterexample alias map: variant of a brand named `BOSS Corp`
with canonical value `boss` (as built by `loadMappings`). -/
def c4Table : List (String × String) := [("boss corp", "boss")]

/-- C4 counterexample display table. -/
def c4Displays : List (String × String) := [("boss", "BOSS Corp")]

/-- The amended reading of C4: the mapped canonical value of a raw key,
exact truthy lookup first, then the lowercased key. -/
def mappedValue (key : String) (table : List (String × String)) : Option String :=
  match lookupTruthy table key with
  | some v => some v
  | none => lookupTruthy table (toLowerCaseJS key)

/-- C5 failing input: a raw device whose `pc` is a bare object. -/
def c5Raw : RawDevice := { pc := some (PCRaw.obj (some "bank select")) }

/-- Empty alias tables (the `loadMappings` catch fallback). -/
def emptyMappings : Mappings := ⟨[], [], [], []⟩

/-- C7 counterexample source DB: a top-level `version` key holding a device map. -/
def c7SourceOnly : Db := [("version", [("d1", ({} : RawDevice))])]

/-- C7 witness target DB. -/
def c7T : Db := [("version", [("x", ({} : RawDevice))])]

/-- Helper facts about `arrayFieldMerge` on two non-empty lists: the result
is one of the inputs, has the maximal length, and ties keep the first. -/
theorem arrayFieldMerge_spec (x y : List α) (hx : x ≠ []) (hy : y ≠ []) :
    (arrayFieldMerge x y = x ∨ arrayFieldMerge x y = y) ∧
    (arrayFieldMerge x y).length = max x.length y.length ∧
    (y.length ≤ x.length → arrayFieldMerge x y = x) := by
  have hx1 : 0 < x.length := List.length_pos.mpr hx
  have hy1 : 0 < y.length := List.length_pos.mpr hy
  unfold arrayFieldMerge
  rw [if_pos ⟨hx1, hy1⟩]
  by_cases h : x.length ≥ y.length
  · rw [if_pos h]
    exact ⟨Or.inl rfl, by omega, fun _ => rfl⟩
  · rw [if_neg h]
    exact ⟨Or.inr rfl, by omega, fun hle => absurd hle h⟩

/-- C1: on the BOSS/GT-1000 scenario, resolution produces a final database
whose only brand entry is `BOSS`, containing exactly one device `GT-1000`,
whose cc list has length 2 and equals the (standardized) source record's
two-element cc list. -/
theorem resolve_scenario_boss_gt1000 :
    resolveDb c1Target c1Source c1Mappings =
      [("BOSS", FinalVal.brand
        [("GT-1000",
          mergeDevices (createStandardDevice c1SourceRaw "BOSS" "GT-1000")
            (createStandardDevice c1TargetRaw "BOSS" "GT-1000"))])] ∧
    (mergeDevices (createStandardDevice c1SourceRaw "BOSS" "GT-1000")
        (createStandardDevice c1TargetRaw "BOSS" "GT-1000")).cc =
      (createStandardDevice c1SourceRaw "BOSS" "GT-1000").cc ∧
    (createStandardDevice c1SourceRaw "BOSS" "GT-1000").cc.length = 2 :=
  ⟨rfl, rfl, rfl⟩

/-- C2: for every pair of standardized device records whose cc (resp. nrpn,
pc) arrays are both non-empty, `mergeDevices` keeps the longer of the two
arrays in full — the result is one of the two input arrays and its length
is the maximum of the two — and in particular a length-3 primary cc beats
a length-1 secondary cc. -/
theorem merge_length_wins (a b : Device) :
    (a.cc ≠ [] → b.cc ≠ [] →
      ((mergeDevices a b).cc = a.cc ∨ (mergeDevices a b).cc = b.cc) ∧
      (mergeDevices a b).cc.length = max a.cc.length b.cc.length) ∧
    (a.nrpn ≠ [] → b.nrpn ≠ [] →
      ((mergeDevices a b).nrpn = a.nrpn ∨ (mergeDevices a b).nrpn = b.nrpn) ∧
      (mergeDevices a b).nrpn.length = max a.nrpn.length b.nrpn.length) ∧
    (a.pc ≠ [] → b.pc ≠ [] →
      ((mergeDevices a b).pc = a.pc ∨ (mergeDevices a b).pc = b.pc) ∧
      (mergeDevices a b).pc.length = max a.pc.length b.pc.length) ∧
    (a.cc.length = 3 → b.cc.length = 1 → (mergeDevices a b).cc = a.cc) := by
  have hcc : (mergeDevices a b).cc = arrayFieldMerge a.cc b.cc := rfl
  have hnr : (mergeDevices a b).nrpn = arrayFieldMerge a.nrpn b.nrpn := rfl
  have hpc : (mergeDevices a b).pc = arrayFieldMerge a.pc b.pc := rfl
  refine ⟨fun hx hy => ?_, fun hx hy => ?_, fun hx hy => ?_, fun h3 h1 => ?_⟩
  · obtain ⟨h1, h2, -⟩ := arrayFieldMerge_spec a.cc b.cc hx hy
    rw [hcc]; exact ⟨h1, h2⟩
  · obtain ⟨h1, h2, -⟩ := arrayFieldMerge_spec a.nrpn b.nrpn hx hy
    rw [hnr]; exact ⟨h1, h2⟩
  · obtain ⟨h1, h2, -⟩ := arrayFieldMerge_spec a.pc b.pc hx hy
    rw [hpc]; exact ⟨h1, h2⟩
  · have hx : a.cc ≠ [] := by intro h; rw [h] at h3; simp at h3
    have hy : b.cc ≠ [] := by intro h; rw [h] at h1; simp at h1
    obtain ⟨-, -, h⟩ := arrayFieldMerge_spec a.cc b.cc hx hy
    rw [hcc]; exact h (by omega)

/-- C2 witness at concrete devices (cc lengths 3 and 1, nrpn and pc non-empty). -/
theorem merge_length_wins_witness :
    (((mergeDevices wDevA wDevB).cc = wDevA.cc ∨ (mergeDevices wDevA wDevB).cc = wDevB.cc) ∧
      (mergeDevices wDevA wDevB).cc.length = max wDevA.cc.length wDevB.cc.length) ∧
    (mergeDevices wDevA wDevB).cc = wDevA.cc := by
  have h := merge_length_wins wDevA wDevB
  exact ⟨h.1 (by decide) (by decide), h.2.2.2 (by decide) (by decide)⟩

/-- C10: all length comparisons in `mergeDevices` break ties in favor of the
primary record: equal-length non-empty cc/nrpn/pc arrays keep the primary
array, and equal-length non-empty instructions strings keep the primary
string. -/
theorem merge_ties_favor_primary (a b : Device) :
    (a.cc ≠ [] → b.cc ≠ [] → a.cc.length = b.cc.length →
      (mergeDevices a b).cc = a.cc) ∧
    (a.nrpn ≠ [] → b.nrpn ≠ [] → a.nrpn.length = b.nrpn.length →
      (mergeDevices a b).nrpn = a.nrpn) ∧
    (a.pc ≠ [] → b.pc ≠ [] → a.pc.length = b.pc.length →
      (mergeDevices a b).pc = a.pc) ∧
    (a.midi_channel.instructions ≠ "" → b.midi_channel.instructions ≠ "" →
      a.midi_channel.instructions.length = b.midi_channel.instructions.length →
      (mergeDevices a b).midi_channel.instructions = a.midi_channel.instructions) := by
  refine ⟨fun hx hy he => ?_, fun hx hy he => ?_, fun hx hy he => ?_, fun hx hy he => ?_⟩
  · exact (arrayFieldMerge_spec a.cc b.cc hx hy).2.2 (by omega)
  · exact (arrayFieldMerge_spec a.nrpn b.nrpn hx hy).2.2 (by omega)
  · exact (arrayFieldMerge_spec a.pc b.pc hx hy).2.2 (by omega)
  · have h : (mergeDevices a b).midi_channel.instructions =
        (if a.midi_channel.instructions ≠ "" ∧ b.midi_channel.instructions ≠ "" then
          (if a.midi_channel.instructions.length ≥ b.midi_channel.instructions.length then
            a.midi_channel.instructions
          else b.midi_channel.instructions)
        else a.midi_channel.instructions) := rfl
    rw [h, if_pos ⟨hx, hy⟩, if_pos (by omega)]

/-- C10 witness at concrete devices with equal-length fields. -/
theorem merge_ties_favor_primary_witness :
    (mergeDevices wDevA wDevA).cc = wDevA.cc ∧
    (mergeDevices wDevA wDevA).nrpn = wDevA.nrpn ∧
    (mergeDevices wDevA wDevA).midi_channel.instructions =
      wDevA.midi_channel.instructions := by
  have h := merge_ties_favor_primary wDevA wDevA
  exact ⟨h.1 (by decide) (by decide) rfl, h.2.1 (by decide) (by decide) rfl,
    h.2.2.2 (by decide) (by decide) rfl⟩

/-- C6 counterexample: with an empty primary instructions string and a
non-empty secondary one, the merged instructions is empty — the
secondary's string is discarded, refuting the claimed length-wins rule
for "at least one non-empty". -/
theorem merge_instructions_counterexample :
    c6Primary.midi_channel.instructions = "" ∧
    c6Secondary.midi_channel.instructions = "use channel 5" ∧
    (mergeDevices c6Primary c6Secondary).midi_channel.instructions = "" ∧
    (mergeDevices c6Primary c6Secondary).midi_channel.instructions ≠
      c6Secondary.midi_channel.instructions := by
  refine ⟨rfl, rfl, rfl, ?_⟩
  decide

/-- C6 amended: the length-wins rule for `midi_channel.instructions` applies
only when both records' instructions are non-empty (ties to the primary);
when the secondary's is empty the primary's is kept, and when the
primary's is empty the merged instructions is empty even if the
secondary's is not. -/
theorem merge_instructions_amended (a b : Device) :
    (a.midi_channel.instructions ≠ "" → b.midi_channel.instructions ≠ "" →
      (mergeDevices a b).midi_channel.instructions =
        (if b.midi_channel.instructions.length ≤ a.midi_channel.instructions.length then
          a.midi_channel.instructions
        else b.midi_channel.instructions)) ∧
    (b.midi_channel.instructions = "" →
      (mergeDevices a b).midi_channel.instructions = a.midi_channel.instructions) ∧
    (a.midi_channel.instructions = "" →
      (mergeDevices a b).midi_channel.instructions = "") := by
  have h : (mergeDevices a b).midi_channel.instructions =
      (if a.midi_channel.instructions ≠ "" ∧ b.midi_channel.instructions ≠ "" then
        (if a.midi_channel.instructions.length ≥ b.midi_channel.instructions.length then
          a.midi_channel.instructions
        else b.midi_channel.instructions)
      else a.midi_channel.instructions) := rfl
  refine ⟨fun hx hy => ?_, fun hy => ?_, fun hx => ?_⟩
  · rw [h, if_pos ⟨hx, hy⟩]
  · rw [h, if_neg (by simp [hy])]
  · rw [h, if_neg (by simp [hx]), hx]

/-- C6 amended witness: both instructions non-empty at concrete devices. -/
theorem merge_instructions_amended_witness :
    (mergeDevices wDevA wDevB).midi_channel.instructions =
      (if wDevB.midi_channel.instructions.length ≤
          wDevA.midi_channel.instructions.length then
        wDevA.midi_channel.instructions
      else wDevB.midi_channel.instructions) :=
  (merge_instructions_amended wDevA wDevB).1 (by decide) (by decide)

/-- C5: the code drops the pre-normalized Program Change entry — the
pre-normalization step rewrites the raw `pc` object into the documented
one-element array, but `createStandardDevice` hardcodes `pc` to the empty
array, so the standardization pipeline yields `pc = []` on the failing
input (and on every input). -/
theorem pc_object_dropped_by_standardizer :
    (preNormalizePC c5Raw).pc = some (PCRaw.arr [progChangeRaw (some "bank select")]) ∧
    (progChangeRaw (some "bank select")).description = some "bank select" ∧
    (createStandardDevice (preNormalizePC c5Raw) "Acme" "Widget").pc = [] ∧
    (∀ (d : RawDevice) (bn dn : String), (createStandardDevice d bn dn).pc = []) :=
  ⟨rfl, rfl, rfl, fun _ _ _ => rfl⟩

/-- C4 counterexample: for the mapped key `boss corp` (canonical value
`boss`, display name `BOSS Corp`), the normalized id is `boss`, which is
not the lowercased whitespace-collapsed display name `boss_corp`. -/
theorem normalize_display_counterexample :
    (normalizeAndMapKey "boss corp" c4Table (some c4Displays)).2 = "BOSS Corp" ∧
    (normalizeAndMapKey "boss corp" c4Table (some c4Displays)).1 = "boss" ∧
    replaceWSRuns (toLowerCaseJS "BOSS Corp") "_" = "boss_corp" ∧
    (normalizeAndMapKey "boss corp" c4Table (some c4Displays)).1 ≠
      replaceWSRuns
        (toLowerCaseJS ((normalizeAndMapKey "boss corp" c4Table (some c4Displays)).2))
        "_" := by
  refine ⟨rfl, rfl, rfl, ?_⟩
  decide

/-- C4 amended: the normalized id is the mapped canonical *value* (or the
raw key when unmapped) lowercased with whitespace runs collapsed to `_`;
the canonical display name is `displayNames[mappedValue]` when present and
non-empty, else the mapped value itself (or the raw key when unmapped). -/
theorem normalize_amended (key : String) (table dt : List (String × String)) :
    (normalizeAndMapKey key table (some dt)).1 =
      replaceWSRuns (toLowerCaseJS ((mappedValue key table).getD key)) "_" ∧
    (∀ v, mappedValue key table = some v →
      (normalizeAndMapKey key table (some dt)).2 = displayOf (some dt) v) ∧
    (mappedValue key table = none → (normalizeAndMapKey key table (some dt)).2 = key) := by
  unfold normalizeAndMapKey mappedValue
  cases h1 : lookupTruthy table key with
  | some v => simp [h1]
  | none =>
    cases h2 : lookupTruthy table (toLowerCaseJS key) with
    | some v => simp [h1, h2]
    | none => simp [h1, h2]

/-- C4 amended witness: a mapped key resolves to its display name and the
normalized id of the mapped value. -/
theorem normalize_amended_witness :
    (normalizeAndMapKey "roland" [("roland", "boss")] (some [("boss", "BOSS")])).2 =
      displayOf (some [("boss", "BOSS")]) "boss" :=
  (normalize_amended "roland" [("roland", "boss")] [("boss", "BOSS")]).2.1 "boss" rfl

/-- C8 counterexample: the diagnostics tool parses `mapping.json` at top
level with no try/catch, so a missing or malformed configuration aborts
the diagnostics run instead of degrading to an empty alias table. -/
theorem diagnostics_abort_counterexample :
    runDiagnostics (Except.error "ENOENT: mapping.json") [] [] =
      Except.error "ENOENT: mapping.json" ∧
    ¬ ∃ d, runDiagnostics (Except.error "ENOENT: mapping.json") [] [] = Except.ok d := by
  refine ⟨rfl, ?_⟩
  rintro ⟨d, h⟩
  exact Except.noConfusion h

/-- C8 amended: on a missing or malformed configuration the merge script's
`loadMappings` degrades to four empty alias tables — under which every key
is its own canonical form — and the resolution run completes; the
diagnostics tool, by contrast, aborts with the load error. -/
theorem missing_config_amended (e : String) (t s : Db) (key : String) :
    loadMappings (Except.error e) = emptyMappings ∧
    (normalizeAndMapKey key emptyMappings.manufacturerMapping
      (some emptyMappings.brandDisplayNames)).2 = key ∧
    (normalizeAndMapKey key emptyMappings.deviceMapping none).2 = key ∧
    resolveDb t s (loadMappings (Except.error e)) = resolveDb t s emptyMappings ∧
    runDiagnostics (Except.error e) t s = Except.error e :=
  ⟨rfl, rfl, rfl, rfl, rfl⟩

/-- Reading back a written key, and reading any other key, through `jsSet`. -/
theorem jsLookup_jsSet (l : List (String × α)) (k : String) (v : α) (n : String) :
    jsLookup (jsSet l k v) n = if k = n then some v else jsLookup l n := by
  induction l with
  | nil => simp [jsSet, jsLookup]
  | cons hd tl ih =>
    obtain ⟨k0, v0⟩ := hd
    by_cases h0 : k0 = k
    · subst h0
      simp only [jsSet, if_pos rfl, jsLookup]
      by_cases hn : k0 = n <;> simp [hn, jsLookup]
    · simp only [jsSet, if_neg h0, jsLookup]
      by_cases hn : k0 = n
      · subst hn
        have : k ≠ k0 := fun he => h0 he.symm
        simp [this]
      · simp [hn, ih]

/-- The final assembly folds from the left; splitting the manufacturer list. -/
theorem assembleDb_append (init : List (String × FinalVal)) (ms1 ms2 : List (String × MEntry))
    (dmap : List (String × List Variant)) :
    assembleDb init (ms1 ++ ms2) dmap = assembleDb (assembleDb init ms1 dmap) ms2 dmap := by
  simp [assembleDb, List.foldl_append]

/-- Manufacturer entries whose canonical name differs from `n` never touch
the final-database entry at `n`. -/
theorem assembleDb_lookup_no_hit (init : List (String × FinalVal))
    (ms : List (String × MEntry)) (dmap : List (String × List Variant)) (n : String)
    (h : ∀ p ∈ ms, p.2.canonicalName ≠ n) :
    jsLookup (assembleDb init ms dmap) n = jsLookup init n := by
  induction ms generalizing init with
  | nil => rfl
  | cons hd tl ih =>
    have hhd : hd.2.canonicalName ≠ n := h hd (List.mem_cons_self hd tl)
    have htl : ∀ p ∈ tl, p.2.canonicalName ≠ n := fun p hp => h p (List.mem_cons_of_mem hd hp)
    show jsLookup (assembleDb (jsSet init hd.2.canonicalName _) tl dmap) n = _
    rw [ih _ htl, jsLookup_jsSet, if_neg hhd]

/-- C9: when two manufacturer entries resolve to the same canonical brand
display name, the one iterated later reinitializes the output entry for
that name, so the final database holds exactly the later entry's processed
devices under that display name — everything the earlier entry contributed
is discarded. -/
theorem brand_display_collision_last_wins (md : List (String × FinalVal))
    (dmap : List (String × List Variant)) (l1 l2 l3 : List (String × MEntry))
    (k1 k2 : String) (e1 e2 : MEntry) (hk : k1 ≠ k2)
    (hname : e1.canonicalName = e2.canonicalName)
    (hafter : ∀ p ∈ l3, p.2.canonicalName ≠ e2.canonicalName) :
    jsLookup (assembleDb md (l1 ++ [(k1, e1)] ++ l2 ++ [(k2, e2)] ++ l3) dmap)
        e2.canonicalName =
      some (FinalVal.brand (processManufacturer dmap e2.canonicalName e2.devices)) := by
  have hsplit : l1 ++ [(k1, e1)] ++ l2 ++ [(k2, e2)] ++ l3 =
      (l1 ++ [(k1, e1)] ++ l2 ++ [(k2, e2)]) ++ l3 := by
    simp [List.append_assoc]
  rw [hsplit, assembleDb_append, assembleDb_lookup_no_hit _ _ _ _ hafter,
    assembleDb_append]
  show jsLookup
      (assembleDb (assembleDb md (l1 ++ [(k1, e1)] ++ l2) dmap) [(k2, e2)] dmap)
      e2.canonicalName = _
  show jsLookup
      (jsSet (assembleDb md (l1 ++ [(k1, e1)] ++ l2) dmap) e2.canonicalName
        (FinalVal.brand (processManufacturer dmap e2.canonicalName e2.devices)))
      e2.canonicalName = _
  rw [jsLookup_jsSet, if_pos rfl]

/-- C9 witness entries: two normalized brand ids with display name `BOSS`. -/
def c9E1 : MEntry := ⟨["roland"], "BOSS", [("gt", "roland_gt")]⟩

/-- C9 witness entries: the later colliding manufacturer entry. -/
def c9E2 : MEntry := ⟨["boss"], "BOSS", [("es-8", "boss_es-8")]⟩

/-- C9 witness: at concrete colliding entries, only the later entry's
devices survive under `BOSS`. -/
theorem brand_display_collision_last_wins_witness :
    jsLookup (assembleDb [] [("roland", c9E1), ("boss", c9E2)] []) "BOSS" =
      some (FinalVal.brand (processManufacturer [] "BOSS" c9E2.devices)) :=
  brand_display_collision_last_wins [] [] [] [] [] "roland" "boss" c9E1 c9E2
    (by decide) rfl (by simp)

/-- C7 counterexample: a top-level `version` key in the source database is
processed as a brand and contributes a device entry to the final database,
refuting the claim that reserved keys are excluded from brand iteration
over both inputs. -/
theorem reserved_key_processed_as_source_brand :
    resolveDb [] c7SourceOnly emptyMappings =
      [("version", FinalVal.brand
        [("d1", createStandardDevice {} "version" "d1")])] ∧
    "version" ∈ reservedKeys := by
  exact ⟨rfl, by decide⟩

/-- The target-database loop ignores entries at reserved keys: filtering
them out of the input does not change the resulting state. -/
theorem processTargetDb_filter_reserved (m : Mappings) (t : Db) (st : ResState) :
    processTargetDb m t st =
      processTargetDb m (t.filter (fun e => decide (e.1 ∉ reservedKeys))) st := by
  induction t generalizing st with
  | nil => rfl
  | cons hd tl ih =>
    by_cases hr : hd.1 ∈ reservedKeys
    · have h1 : processTargetDb m (hd :: tl) st = processTargetDb m tl st := by
        simp [processTargetDb, hr]
      rw [h1, List.filter_cons_of_neg (by simp [hr])]
      exact ih st
    · have h1 : processTargetDb m (hd :: tl) st =
          processTargetDb m tl (processBrandTarget m st hd.1 hd.2) := by
        simp [processTargetDb, hr]
      have h2 : processTargetDb m
          (hd :: tl.filter (fun e => decide (e.1 ∉ reservedKeys))) st =
          processTargetDb m (tl.filter (fun e => decide (e.1 ∉ reservedKeys)))
            (processBrandTarget m st hd.1 hd.2) := by
        simp [processTargetDb, hr]
      rw [h1, List.filter_cons_of_pos (by simp [hr]), h2]
      exact ih _

/-- C7 amended: the reserved keys `version` and `generatedAt` are copied
verbatim from the target database into the output metadata and are skipped
by the target database's brand iteration; the source database's brand
iteration, however, does not skip them. -/
theorem reserved_keys_amended (m : Mappings) (t : Db) (k : String)
    (v : List (String × RawDevice)) (hk : k ∈ reservedKeys)
    (hv : jsLookup t k = some v) :
    jsLookup (metadataOf t) k = some (FinalVal.meta v) ∧
    ∀ st, processTargetDb m t st =
      processTargetDb m (t.filter (fun e => decide (e.1 ∉ reservedKeys))) st := by
  constructor
  · have hk2 : k = "version" ∨ k = "generatedAt" := by
      simpa [reservedKeys] using hk
    rcases hk2 with rfl | rfl
    · rcases h2 : jsLookup t "generatedAt" with - | v2 <;>
        simp [metadataOf, reservedKeys, hv, h2, jsLookup]
    · rcases h1 : jsLookup t "version" with - | v1 <;>
        simp [metadataOf, reservedKeys, hv, h1, jsLookup]
  · exact processTargetDb_filter_reserved m t

/-- C7 amended witness: at a concrete target database holding a `version`
key, the metadata copy contains it verbatim. -/
theorem reserved_keys_amended_witness :
    jsLookup (metadataOf c7T) "version" =
      some (FinalVal.meta [("x", ({} : RawDevice))]) :=
  (reserved_keys_amended emptyMappings c7T "version" [("x", {})]
    (by decide) rfl).1

/-- Reading a group after `pushGroup`: the pushed name gains the variant at
the end of its group, other names are untouched. -/
theorem jsLookup_pushGroup (gs : List (String × List Variant)) (m : String)
    (v : Variant) (n : String) :
    jsLookup (pushGroup gs m v) n =
      if m = n then some ((jsLookup gs n).getD [] ++ [v]) else jsLookup gs n := by
  induction gs with
  | nil => by_cases h : m = n <;> simp [pushGroup, jsLookup, h]
  | cons hd tl ih =>
    obtain ⟨k, l⟩ := hd
    by_cases hkm : k = m
    · subst hkm
      simp only [pushGroup, if_pos rfl]
      by_cases hn : k = n
      · subst hn; simp [jsLookup]
      · simp [jsLookup, hn]
    · simp only [pushGroup, if_neg hkm, jsLookup]
      by_cases hn : k = n
      · subst hn
        have hmn : m ≠ k := fun he => hkm he.symm
        simp [hmn, jsLookup]
      · simp [hn, ih]

/-- Combine an existing group with the variants filtered from the rest. -/
def optAppend (o : Option (List Variant)) (f : List Variant) : Option (List Variant) :=
  match o with
  | some l => some (l ++ f)
  | none => if f = [] then none else some f

/-- Folding `pushGroup` over variants: each name's group collects exactly
the variants carrying that name, in encounter order. -/
theorem groupFold_lookup (vs : List Variant) (gs : List (String × List Variant))
    (n : String) :
    jsLookup (vs.foldl (fun gs v => pushGroup gs (nameOf v) v) gs) n =
      optAppend (jsLookup gs n) (vs.filter (fun v => nameOf v = n)) := by
  induction vs generalizing gs with
  | nil => cases h : jsLookup gs n <;> simp [optAppend, h]
  | cons v rest ih =>
    simp only [List.foldl_cons]
    rw [ih, jsLookup_pushGroup]
    by_cases h : nameOf v = n
    · rw [if_pos h, List.filter_cons_of_pos (by simp [h])]
      cases hg : jsLookup gs n with
      | none => simp [optAppend]
      | some l => simp [optAppend]
    · rw [if_neg h, List.filter_cons_of_neg (by simp [h])]

/-- The group lookup of `groupByName`. -/
theorem groupByName_lookup (vs : List Variant) (n : String) :
    jsLookup (groupByName vs) n =
      optAppend none (vs.filter (fun v => nameOf v = n)) := by
  have h := groupFold_lookup vs [] n
  simpa [groupByName, jsLookup] using h

/-- `pushGroup` either leaves the key list unchanged or appends the new name. -/
theorem keys_pushGroup (gs : List (String × List Variant)) (m : String) (v : Variant) :
    (pushGroup gs m v).map Prod.fst =
      if m ∈ gs.map Prod.fst then gs.map Prod.fst else gs.map Prod.fst ++ [m] := by
  induction gs with
  | nil => simp [pushGroup]
  | cons hd tl ih =>
    obtain ⟨k, l⟩ := hd
    by_cases hkm : k = m
    · subst hkm; simp [pushGroup]
    · have hmk : ¬ m = k := fun he => hkm he.symm
      simp only [pushGroup, if_neg hkm, List.map_cons, List.mem_cons]
      rw [ih]
      by_cases hm : m ∈ tl.map Prod.fst
      · simp [hm, hmk]
      · simp [hm, hmk]

/-- The group keys produced by folding `pushGroup` stay duplicate-free. -/
theorem nodup_keys_groupFold (vs : List Variant) (gs : List (String × List Variant))
    (h : (gs.map Prod.fst).Nodup) :
    ((vs.foldl (fun gs v => pushGroup gs (nameOf v) v) gs).map Prod.fst).Nodup := by
  induction vs generalizing gs with
  | nil => exact h
  | cons v rest ih =>
    simp only [List.foldl_cons]
    apply ih
    rw [keys_pushGroup]
    by_cases hm : nameOf v ∈ gs.map Prod.fst
    · rw [if_pos hm]; exact h
    · rw [if_neg hm]
      simp [List.nodup_append, h, hm]

/-- `groupByName` produces duplicate-free group names. -/
theorem nodup_keys_groupByName (vs : List Variant) :
    ((groupByName vs).map Prod.fst).Nodup :=
  nodup_keys_groupFold vs [] (by simp)

/-- A key outside an association list's key set reads back `none`. -/
theorem jsLookup_none_of_not_mem_keys (l : List (String × α)) (n : String)
    (h : n ∉ l.map Prod.fst) : jsLookup l n = none := by
  induction l with
  | nil => rfl
  | cons hd tl ih =>
    obtain ⟨k, v⟩ := hd
    simp only [List.map_cons, List.mem_cons, not_or] at h
    simp only [jsLookup, if_neg (fun he : k = n => h.1 he.symm)]
    exact ih h.2

/-- Folding `jsSet` over an association list with duplicate-free keys: a
present key reads back its own transformed group, an absent one falls
through to the accumulator. -/
theorem jsLookup_foldl_jsSet (gs : List (String × List Variant))
    (f : String → List Variant → Device) (acc : List (String × Device)) (n : String)
    (hnd : (gs.map Prod.fst).Nodup) :
    jsLookup (gs.foldl (fun inner g => jsSet inner g.1 (f g.1 g.2)) acc) n =
      (match jsLookup gs n with
      | some g => some (f n g)
      | none => jsLookup acc n) := by
  induction gs generalizing acc with
  | nil => rfl
  | cons hd tl ih =>
    obtain ⟨k, l⟩ := hd
    simp only [List.map_cons, List.nodup_cons] at hnd
    simp only [List.foldl_cons]
    rw [ih _ hnd.2]
    by_cases hk : k = n
    · subst hk
      rw [jsLookup_none_of_not_mem_keys tl k hnd.1]
      simp [jsLookup, jsLookup_jsSet]
    · cases h2 : jsLookup tl n with
      | some g => simp [jsLookup, hk, h2]
      | none => simp [jsLookup, hk, h2, jsLookup_jsSet]

/-- A bucket entry at a represented model name is exactly the merge of the
variants carrying that name. -/
theorem processBucket_lookup (pk : String) (vs : List Variant) (n : String)
    (hn : ∃ v ∈ vs, nameOf v = n) :
    jsLookup (processBucket pk vs []) n =
      some (mergeModelGroup pk n (vs.filter (fun v => nameOf v = n))) := by
  have hne : vs.filter (fun v => nameOf v = n) ≠ [] := by
    obtain ⟨v, hv, hvn⟩ := hn
    intro hemp
    have : v ∈ vs.filter (fun v => nameOf v = n) := by
      rw [List.mem_filter]
      exact ⟨hv, by simp [hvn]⟩
    rw [hemp] at this
    exact List.not_mem_nil v this
  have hgroups : jsLookup (groupByName vs) n =
      some (vs.filter (fun v => nameOf v = n)) := by
    rw [groupByName_lookup]
    simp [optAppend, hne]
  show jsLookup
      ((groupByName vs).foldl
        (fun inner g => jsSet inner g.1 (mergeModelGroup pk g.1 g.2)) []) n = _
  rw [jsLookup_foldl_jsSet _ _ _ _ (nodup_keys_groupByName vs), hgroups]

/-- C3: in any identity bucket, variants with different canonical display
names are never merged together — each represented display name gets its
own sibling entry under the brand, built by merging only the variants
that carry that very name. -/
theorem model_disambiguation (pk : String) (vs : List Variant) (v1 v2 : Variant)
    (h1 : v1 ∈ vs) (h2 : v2 ∈ vs) (hne : nameOf v1 ≠ nameOf v2) :
    jsLookup (processBucket pk vs []) (nameOf v1) =
      some (mergeModelGroup pk (nameOf v1)
        (vs.filter (fun v => nameOf v = nameOf v1))) ∧
    jsLookup (processBucket pk vs []) (nameOf v2) =
      some (mergeModelGroup pk (nameOf v2)
        (vs.filter (fun v => nameOf v = nameOf v2))) :=
  ⟨processBucket_lookup pk vs (nameOf v1) ⟨v1, h1, rfl⟩,
    processBucket_lookup pk vs (nameOf v2) ⟨v2, h2, rfl⟩⟩

/-- C3 witness: a bucket variant named `GT-1000`. -/
def c3v1 : Variant :=
  ⟨"BOSS", "GT-1000", "BOSS", "GT-1000", createStandardDevice {} "BOSS" "GT-1000"⟩

/-- C3 witness: a colliding bucket variant named `GT-1000MK2`. -/
def c3v2 : Variant :=
  ⟨"roland", "gt1000mk2", "BOSS", "GT-1000MK2",
    createStandardDevice {} "BOSS" "GT-1000MK2"⟩

/-- C3 witness: two same-bucket variants with different display names end
up as two separate entries, each merged only from its own group. -/
theorem model_disambiguation_witness :
    jsLookup (processBucket "BOSS" [c3v1, c3v2] []) (nameOf c3v1) =
      some (mergeModelGroup "BOSS" (nameOf c3v1)
        ([c3v1, c3v2].filter (fun v => nameOf v = nameOf c3v1))) ∧
    jsLookup (processBucket "BOSS" [c3v1, c3v2] []) (nameOf c3v2) =
      some (mergeModelGroup "BOSS" (nameOf c3v2)
        ([c3v1, c3v2].filter (fun v => nameOf v = nameOf c3v2))) :=
  model_disambiguation "BOSS" [c3v1, c3v2] c3v1 c3v2 (by simp) (by simp) (by decide)
